import Mathlib

/-!
Verification development for the MIDA import-tracking core: the balance
ledger, status engine and import service of `app/repositories/mida_import_repo.py`,
`app/services/mida_import_service.py`, the database triggers of migration
`002_mida_import_tracking.py`, and the item matcher of
`app/services/mida_matcher.py`.

Quantities are modelled as rationals (the source stores SQL `NUMERIC(18,3)` /
Python `Decimal`, both exact decimal arithmetic, a subset of `ℚ`); nullable
columns are `Option ℚ`.  Dates and creation timestamps are modelled as `Nat`
ordinals, since the code only ever compares them.
-/

namespace Mida

/-- Quantity status of a certificate item (`QuantityStatus` in
`app/models/mida_certificate.py`). -/
inductive QStatus where
  | normal
  | warning
  | depleted
  | overdrawn
deriving DecidableEq, Repr

/-- Import port (`ImportPort` in `app/models/mida_certificate.py`). -/
inductive Port where
  | portKlang
  | klia
  | bukitKayuHitam
deriving DecidableEq, Repr

/-- The columns of `mida_certificate_items` that the balance ledger and the
status engine read and write. -/
structure ItemState where
  approvedQuantity : Option ℚ
  portKlangQty : Option ℚ
  kliaQty : Option ℚ
  bukitKayuHitamQty : Option ℚ
  remainingQuantity : Option ℚ
  remainingPortKlang : Option ℚ
  remainingKlia : Option ℚ
  remainingBukitKayuHitam : Option ℚ
  warningThreshold : Option ℚ
  quantityStatus : QStatus
deriving DecidableEq, Repr

/-- The per-port approved quantity column selected by a port value. -/
def ItemState.portQty (it : ItemState) : Port → Option ℚ
  | .portKlang => it.portKlangQty
  | .klia => it.kliaQty
  | .bukitKayuHitam => it.bukitKayuHitamQty

/-- The per-port remaining quantity column selected by a port value
(`get_current_balance_for_port` reads exactly this column). -/
def ItemState.remainingFor (it : ItemState) : Port → Option ℚ
  | .portKlang => it.remainingPortKlang
  | .klia => it.remainingKlia
  | .bukitKayuHitam => it.remainingBukitKayuHitam

/-- A row of `mida_import_records` (`MidaImportRecord`).  Fields not read or
written by the functions under verification (invoice number, remarks, ...)
are omitted; they constrain nothing here. -/
structure ImportRec where
  certItemId : Nat
  importDate : Nat
  createdAt : Nat
  quantityImported : ℚ
  port : Port
  balanceBefore : ℚ
  balanceAfter : ℚ
deriving DecidableEq, Repr

/-- `get_default_warning_threshold`: the `default_warning_threshold` setting
when present, otherwise `Decimal("100")`. -/
def getDefaultWarningThreshold (setting : Option ℚ) : ℚ :=
  setting.getD 100

/-- The status derivation shared by the SQL function
`calculate_quantity_status` (migration 002) and the identical Python branch
chains in `recalculate_item_remaining_quantities` and
`update_item_warning_threshold`: NULL remaining is `normal`; negative is
`overdrawn`; zero is `depleted`; at or below the effective threshold is
`warning`; otherwise `normal`.  The effective threshold is the item's
`warning_threshold` when set, else the supplied default. -/
def calculateQuantityStatus (remaining : Option ℚ) (warningThreshold : Option ℚ)
    (defaultThreshold : ℚ) : QStatus :=
  match remaining with
  | none => .normal
  | some r =>
    if r < 0 then .overdrawn
    else if r = 0 then .depleted
    else if r ≤ warningThreshold.getD defaultThreshold then .warning
    else .normal

/-- Sum of `quantity_imported` over an item's records at one port — the
`SELECT port, COALESCE(SUM(quantity_imported), 0) ... GROUP BY port` read in
`recalculate_item_remaining_quantities`. -/
def importedAtPort (records : List ImportRec) (p : Port) : ℚ :=
  ((records.filter (fun r => r.port == p)).map (fun r => r.quantityImported)).sum

/-- `recalculate_item_remaining_quantities`: recompute each per-port remaining
as `(approved-or-0) - imported`, recompute the aggregate as the sum of the
three port remainders, then refresh the status.  (Python's
`item.port_klang_qty or Decimal("0")` is value-equal to `Option.getD 0`:
`or` also replaces a stored 0 by `Decimal("0")`.) -/
def recalculateItemRemainingQuantities (it : ItemState) (records : List ImportRec)
    (defaultThreshold : ℚ) : ItemState :=
  let rPk := it.portKlangQty.getD 0 - importedAtPort records .portKlang
  let rKl := it.kliaQty.getD 0 - importedAtPort records .klia
  let rBk := it.bukitKayuHitamQty.getD 0 - importedAtPort records .bukitKayuHitam
  let total := rPk + rKl + rBk
  { it with
    remainingPortKlang := some rPk
    remainingKlia := some rKl
    remainingBukitKayuHitam := some rBk
    remainingQuantity := some total
    quantityStatus :=
      calculateQuantityStatus (some total) it.warningThreshold defaultThreshold }

/-- The `AFTER INSERT` trigger `update_item_balance_after_import`
(migration 002): decrement the inserted record's port remaining column
(SQL NULL propagates through subtraction), decrement the aggregate
`remaining_quantity` independently (`COALESCE(remaining_quantity, 0) -
NEW.quantity_imported`), then recompute the status from the new aggregate. -/
def updateItemBalanceAfterImport (it : ItemState) (p : Port) (qty : ℚ)
    (defaultThreshold : ℚ) : ItemState :=
  let it1 :=
    match p with
    | .portKlang =>
      { it with
        remainingPortKlang := it.remainingPortKlang.map (fun x => x - qty)
        remainingQuantity := some (it.remainingQuantity.getD 0 - qty) }
    | .klia =>
      { it with
        remainingKlia := it.remainingKlia.map (fun x => x - qty)
        remainingQuantity := some (it.remainingQuantity.getD 0 - qty) }
    | .bukitKayuHitam =>
      { it with
        remainingBukitKayuHitam := it.remainingBukitKayuHitam.map (fun x => x - qty)
        remainingQuantity := some (it.remainingQuantity.getD 0 - qty) }
  { it1 with
    quantityStatus :=
      calculateQuantityStatus it1.remainingQuantity it1.warningThreshold defaultThreshold }

/-- First-non-null choice, the shape of the NULL checks in the
`initialize_remaining_quantities` trigger. -/
def orIfNull (x y : Option ℚ) : Option ℚ :=
  match x with
  | none => y
  | some v => some v

/-- The `BEFORE INSERT` trigger `initialize_remaining_quantities`
(migration 002): each NULL remaining column is seeded from the corresponding
approved column. -/
def initializeRemainingQuantities (it : ItemState) : ItemState :=
  { it with
    remainingQuantity := orIfNull it.remainingQuantity it.approvedQuantity
    remainingPortKlang := orIfNull it.remainingPortKlang it.portKlangQty
    remainingKlia := orIfNull it.remainingKlia it.kliaQty
    remainingBukitKayuHitam := orIfNull it.remainingBukitKayuHitam it.bukitKayuHitamQty }

/-- `update_item_warning_threshold`: store the new threshold, then refresh the
status — but only when `remaining_quantity` is not NULL. -/
def updateItemWarningThreshold (it : ItemState) (wt : Option ℚ)
    (defaultThreshold : ℚ) : ItemState :=
  let it1 := { it with warningThreshold := wt }
  match it.remainingQuantity with
  | none => it1
  | some r =>
    { it1 with quantityStatus := calculateQuantityStatus (some r) wt defaultThreshold }

/-- The `ORDER BY import_date, created_at` ordering of
`recalculate_item_port_balances`. -/
def recLe (a b : ImportRec) : Prop :=
  a.importDate < b.importDate ∨ (a.importDate = b.importDate ∧ a.createdAt ≤ b.createdAt)

instance : DecidableRel recLe := fun a b => by
  unfold recLe; infer_instance

instance : IsTotal ImportRec recLe :=
  ⟨fun a b => by unfold recLe; omega⟩

instance : IsTrans ImportRec recLe :=
  ⟨fun a b c hab hbc => by unfold recLe at hab hbc ⊢; omega⟩

/-- The item/port history in authoritative order. -/
def sortRecords (rs : List ImportRec) : List ImportRec :=
  rs.insertionSort recLe

/-- The replay loop of `recalculate_item_port_balances`: walking the ordered
records, each record's `balance_before` is set to the running balance, its
`balance_after` to the running balance minus its quantity, and the running
balance becomes that `balance_after`. -/
def replayBalances (bal : ℚ) : List ImportRec → List ImportRec
  | [] => []
  | r :: rest =>
    { r with balanceBefore := bal, balanceAfter := bal - r.quantityImported } ::
      replayBalances (bal - r.quantityImported) rest

/-- `recalculate_item_port_balances`: select the item's records at the port,
order them by import date then creation time, and replay from the port's
approved quantity (`or Decimal("0")` for NULL). -/
def recalculateItemPortBalances (it : ItemState) (records : List ImportRec)
    (p : Port) : List ImportRec :=
  replayBalances ((it.portQty p).getD 0)
    (sortRecords (records.filter (fun r => r.port == p)))

/-- The running balance (the loop's `current_balance` variable) left when the
replay loop finishes: every iteration replaces it by `balance_after =
current_balance - quantity_imported`. -/
def replayFinalBalance (bal : ℚ) (rs : List ImportRec) : ℚ :=
  rs.foldl (fun b r => b - r.quantityImported) bal

/-! ## Import service (`app/services/mida_import_service.py`) -/

/-- The error taxonomy of `mida_import_service` (subclasses of its
`ImportError`). -/
inductive ImpError where
  | itemNotFound
  | insufficientBalance
  | invalidPort
deriving DecidableEq, Repr

/-- An import request (`ImportRecordCreate`); fields the service never reads
are omitted. -/
structure ImportRequest where
  certItemId : Nat
  importDate : Nat
  quantityImported : ℚ
  port : Port
deriving DecidableEq, Repr

/-- The database state the import service touches: the certificate-item rows,
the import-record table, the `default_warning_threshold` setting, and a
creation-order counter standing in for the `created_at` timestamps. -/
structure Db where
  items : List (Nat × ItemState)
  records : List ImportRec
  defaultThresholdSetting : Option ℚ
  nextCreatedAt : Nat
deriving DecidableEq, Repr

/-- Row lookup by item id. -/
def lookupItem (items : List (Nat × ItemState)) (id : Nat) : Option ItemState :=
  match items.find? (fun p => p.1 == id) with
  | none => none
  | some p => some p.2

/-- Row update by item id. -/
def setItem (items : List (Nat × ItemState)) (id : Nat) (it : ItemState) :
    List (Nat × ItemState) :=
  items.map (fun p => if p.1 == id then (p.1, it) else p)

/-- A database session: the committed state and the in-transaction working
copy.  `db.commit()` publishes the working copy; `db.rollback()` discards
it. -/
structure Sess where
  committed : Db
  working : Db
deriving DecidableEq, Repr

/-- The status-transition summary `record_import` returns (the part of its
`ImportResult` the claims mention). -/
structure ImportInfo where
  previousStatus : QStatus
  newStatus : QStatus
deriving DecidableEq, Repr

/-- The current-balance resolution inside `record_import`: read the port's
remaining column (`get_current_balance_for_port`); when it is NULL, fall back
to the port's allocated quantity, raising `InvalidPortError` when that is
NULL too. -/
def resolveBalance (it : ItemState) (p : Port) : Except ImpError ℚ :=
  match it.remainingFor p with
  | some c => .ok c
  | none =>
    match it.portQty p with
    | some a => .ok a
    | none => .error .invalidPort

/-- `record_import`: look the item up, resolve the current port balance,
compute the balance after the import, reject with `InsufficientBalanceError`
when overdraw is disallowed and the balance would go negative, otherwise
persist the record (`create_import_record`), let the insert trigger update
the item, and `db.commit()`. -/
def recordImport (s : Sess) (req : ImportRequest) (allowOverdraw : Bool) :
    Except ImpError (Sess × ImportInfo) :=
  let db := s.working
  match lookupItem db.items req.certItemId with
  | none => .error .itemNotFound
  | some item =>
    match resolveBalance item req.port with
    | .error e => .error e
    | .ok currentBalance =>
      let balanceAfter := currentBalance - req.quantityImported
      if allowOverdraw = false ∧ balanceAfter < 0 then
        .error .insufficientBalance
      else
        let newRec : ImportRec :=
          { certItemId := req.certItemId, importDate := req.importDate,
            createdAt := db.nextCreatedAt, quantityImported := req.quantityImported,
            port := req.port, balanceBefore := currentBalance,
            balanceAfter := balanceAfter }
        let item1 := updateItemBalanceAfterImport item req.port req.quantityImported
          (getDefaultWarningThreshold db.defaultThresholdSetting)
        let db1 : Db :=
          { db with
            records := db.records ++ [newRec]
            items := setItem db.items req.certItemId item1
            nextCreatedAt := db.nextCreatedAt + 1 }
        .ok ({ committed := db1, working := db1 },
          { previousStatus := item.quantityStatus, newStatus := item1.quantityStatus })

/-- Exception semantics at the call boundary: a raised error propagates and
leaves the caller's session — committed and working state alike — exactly as
it was. -/
def runRecordImport (s : Sess) (req : ImportRequest) (allowOverdraw : Bool) :
    Sess × Option ImportInfo :=
  match recordImport s req allowOverdraw with
  | .ok (s1, info) => (s1, some info)
  | .error _ => (s, none)

/-- `record_bulk_imports`: apply `record_import` to each request in order
(each successful one commits, inside `record_import`).  On an error,
`stop_on_error=True` first calls `db.rollback()` and re-raises; otherwise the
error is re-raised directly.  Either way the loop stops; the pair returned
is the session as the exception leaves it, with the error. -/
def recordBulkImports (s : Sess) (reqs : List ImportRequest) (allowOverdraw : Bool)
    (stopOnError : Bool) : Sess × Except ImpError (List ImportInfo) :=
  match reqs with
  | [] => (s, .ok [])
  | req :: rest =>
    match recordImport s req allowOverdraw with
    | .ok (s1, info) =>
      match recordBulkImports s1 rest allowOverdraw stopOnError with
      | (s2, .ok infos) => (s2, .ok (info :: infos))
      | (s2, .error e) => (s2, .error e)
    | .error e =>
      if stopOnError then ({ s with working := s.committed }, .error e)
      else (s, .error e)

/-! ## Sequences of commits and recalculations (testable-properties section) -/

/-- One certificate item's share of the database: its row and its import
records. -/
structure ItemDb where
  item : ItemState
  records : List ImportRec
deriving DecidableEq, Repr

/-- The two balance-mutating operations the testable-properties section
quantifies over: a committed import (record insert plus the
`update_item_balance_after_import` trigger) and a run of
`recalculate_item_remaining_quantities`. -/
inductive LedgerOp where
  | commit (p : Port) (qty : ℚ) (importDate createdAt : Nat)
  | recalc
deriving DecidableEq, Repr

/-- Apply one operation to an item's state. -/
def applyLedgerOp (defaultThreshold : ℚ) (s : ItemDb) : LedgerOp → ItemDb
  | .commit p qty d c =>
    let bal := match resolveBalance s.item p with
      | .ok v => v
      | .error _ => 0
    let newRec : ImportRec :=
      { certItemId := 0, importDate := d, createdAt := c,
        quantityImported := qty, port := p,
        balanceBefore := bal, balanceAfter := bal - qty }
    { item := updateItemBalanceAfterImport s.item p qty defaultThreshold,
      records := s.records ++ [newRec] }
  | .recalc =>
    { s with item := recalculateItemRemainingQuantities s.item s.records defaultThreshold }

/-- Apply a sequence of operations in order. -/
def applyLedgerOps (defaultThreshold : ℚ) (s : ItemDb) (ops : List LedgerOp) : ItemDb :=
  ops.foldl (applyLedgerOp defaultThreshold) s

/-- Whether a sequence contains at least one recalculation. -/
def hasRecalc : List LedgerOp → Bool
  | [] => false
  | .recalc :: _ => true
  | .commit _ _ _ _ :: rest => hasRecalc rest

/-- The spec's aggregate-consistency invariant: all three per-port remainders
are present and `remaining_quantity` is their sum. -/
def aggInvariant (it : ItemState) : Prop :=
  ∃ a b c, it.remainingPortKlang = some a ∧ it.remainingKlia = some b ∧
    it.remainingBukitKayuHitam = some c ∧ it.remainingQuantity = some (a + b + c)

/-! ## Matcher (`app/services/mida_matcher.py`)

Text is modelled over ASCII, on which Unicode NFKD decomposition is the
identity and Python's `casefold` is plain single-character lowercasing; the
matcher's behaviour on the claims below does not depend on the wider Unicode
tables. -/

/-- `WarningSeverity`. -/
inductive Severity where
  | info
  | warning
  | error
deriving DecidableEq, Repr

/-- `MatchMode`. -/
inductive MatchMode where
  | exact
  | fuzzy
deriving DecidableEq, Repr

/-- A regex `\w` word character (ASCII): alphanumeric or underscore. -/
def isWordChar (c : Char) : Bool :=
  c.isAlphanum || c == '_'

/-- Split a character list at spaces, keeping the (possibly empty)
segments. -/
def splitOnSpace : List Char → List (List Char)
  | [] => [[]]
  | c :: rest =>
    match splitOnSpace rest with
    | [] => [[c]]
    | s :: ss => if c = ' ' then [] :: s :: ss else (c :: s) :: ss

/-- The nonempty space-separated words of a character list — Python
`str.split()` on text whose only whitespace is the space character (the only
kind the normalizer emits). -/
def wordsOf (l : List Char) : List (List Char) :=
  (splitOnSpace l).filter (fun w => !w.isEmpty)

/-- `normalize`: NFKD, casefold, replace every non-word character by a space,
collapse whitespace runs, trim.  Realised as: lowercase word characters are
kept, every other character separates; the separated words are rejoined with
single spaces. -/
def normalize (s : String) : String :=
  String.intercalate " "
    ((wordsOf (s.toList.map (fun c => if isWordChar c then c.toLower else ' '))).map
      (fun w => String.mk w))

/-- Python `str.split()`: the whitespace-separated tokens. -/
def tokensOf (s : String) : List String :=
  (wordsOf s.toList).map (fun w => String.mk w)

/-- `set(text.split())`. -/
def tokenFinset (s : String) : Finset String :=
  (tokensOf s).toFinset

/-- Length of the longest common run at the heads of two character lists. -/
def runLen : List Char → List Char → Nat
  | x :: xs, y :: ys => if x = y then runLen xs ys + 1 else 0
  | _, _ => 0

/-- `SequenceMatcher.find_longest_match` (difflib, junk-free inputs): among
all matching blocks `a[i:i+k] == b[j:j+k]` return the one with the largest
`k`, then the earliest `i`, then the earliest `j` — difflib's documented
selection rule, realised as a fold in ascending `(i, j)` order accepting only
strictly longer blocks. -/
def longestMatch (a b : List Char) : Nat × Nat × Nat :=
  ((List.range a.length).flatMap (fun i =>
      (List.range b.length).map (fun j => (i, j, runLen (a.drop i) (b.drop j))))).foldl
    (fun best c => if best.2.2 < c.2.2 then c else best) (0, 0, 0)

/-- Total size of the matching blocks (`get_matching_blocks`): take the
longest match and recurse on the pieces before and after it.  `fuel` only
drives structural recursion (keeping the definition kernel-computable);
`a.length + 1` levels always suffice since every recursive call strictly
shrinks the first list. -/
def matchingSizeFuel : Nat → List Char → List Char → Nat
  | 0, _, _ => 0
  | fuel + 1, a, b =>
    let t := longestMatch a b
    if t.2.2 = 0 then 0
    else
      matchingSizeFuel fuel (a.take t.1) (b.take t.2.1) + t.2.2 +
        matchingSizeFuel fuel (a.drop (t.1 + t.2.2)) (b.drop (t.2.1 + t.2.2))

/-- The matched-character total with always-sufficient fuel. -/
def matchingSize (a b : List Char) : Nat :=
  matchingSizeFuel (a.length + 1) a b

/-- `SequenceMatcher.ratio`: `2*M / (len(a) + len(b))`, and 1 when both
sides are empty (difflib's `_calculate_ratio`). -/
def sequenceRatio (a b : List Char) : ℚ :=
  if a.length + b.length = 0 then 1
  else (2 * matchingSize a b : ℚ) / (a.length + b.length)

/-- `calculate_similarity`: 0 when either text is empty, 1 when the texts are
equal, otherwise the weighted blend of token-set Jaccard similarity and the
character-level sequence ratio. -/
def calculateSimilarity (text1 text2 : String) : ℚ :=
  if text1 = "" ∨ text2 = "" then 0
  else if text1 = text2 then 1
  else
    let tokens1 := tokenFinset text1
    let tokens2 := tokenFinset text2
    if tokens1 = ∅ ∨ tokens2 = ∅ then 0
    else
      let unionCard := (tokens1 ∪ tokens2).card
      let tokenSimilarity : ℚ :=
        if 0 < unionCard then ((tokens1 ∩ tokens2).card : ℚ) / unionCard else 0
      let sequenceSimilarity := sequenceRatio text1.toList text2.toList
      tokenSimilarity * (0.4 : ℚ) + sequenceSimilarity * (0.6 : ℚ)

/-- `UOM_ALIASES`. -/
def uomAliases : List (String × String) :=
  [("unt", "UNIT"), ("unit", "UNIT"), ("units", "UNIT"), ("pcs", "UNIT"),
   ("pc", "UNIT"), ("piece", "UNIT"), ("pieces", "UNIT"), ("ea", "UNIT"),
   ("each", "UNIT"), ("nos", "UNIT"), ("no", "UNIT"), ("number", "UNIT"),
   ("kgm", "KGM"), ("kgs", "KGM"), ("kg", "KGM"), ("kilogram", "KGM"),
   ("kilograms", "KGM"),
   ("mtr", "MTR"), ("m", "MTR"), ("meter", "MTR"), ("meters", "MTR"),
   ("metre", "MTR"), ("metres", "MTR"),
   ("ltr", "LTR"), ("l", "LTR"), ("liter", "LTR"), ("liters", "LTR"),
   ("litre", "LTR"), ("litres", "LTR")]

/-- Dictionary lookup in the alias table. -/
def lookupAlias (key : String) : Option String :=
  match uomAliases.find? (fun p => p.1 == key) with
  | none => none
  | some p => some p.2

/-- `str.strip()`: drop whitespace from both ends of a character list. -/
def stripChars (l : List Char) : List Char :=
  ((l.dropWhile (fun c => c.isWhitespace)).reverse.dropWhile
    (fun c => c.isWhitespace)).reverse

/-- `str.strip()` on a string. -/
def pyStrip (s : String) : String :=
  String.mk (stripChars s.toList)

/-- `str.lower()` (ASCII). -/
def pyLower (s : String) : String :=
  String.mk (s.toList.map Char.toLower)

/-- `str.upper()` (ASCII). -/
def pyUpper (s : String) : String :=
  String.mk (s.toList.map Char.toUpper)

/-- `normalize_uom`: empty input defaults to UNIT; otherwise strip and
lowercase, map through the alias table, and fall back to the stripped
uppercase input. -/
def normalizeUom (uom : String) : String :=
  if uom = "" then "UNIT"
  else
    let norm := pyLower (pyStrip uom)
    if norm = "" then "UNIT"
    else
      match lookupAlias norm with
      | some canonical => canonical
      | none => pyUpper (pyStrip uom)

/-- `UOM_COMPATIBILITY`: the (all-singleton) compatibility groups. -/
def uomCompatibility : List (String × List String) :=
  [("UNIT", ["UNIT"]), ("KGM", ["KGM"]), ("MTR", ["MTR"]), ("LTR", ["LTR"])]

/-- `UOM_COMPATIBILITY.get(norm, set containing norm)`. -/
def compatGroup (norm : String) : List String :=
  match uomCompatibility.find? (fun p => p.1 == norm) with
  | none => [norm]
  | some p => p.2

/-- `are_uoms_compatible`: equal normalized forms, or intersecting
compatibility groups. -/
def areUomsCompatible (uom1 uom2 : String) : Bool :=
  let n1 := normalizeUom uom1
  let n2 := normalizeUom uom2
  if n1 = n2 then true
  else (compatGroup n1).any (fun g => (compatGroup n2).contains g)

/-- `InvoiceItem` (matching input; `amount_usd` is never read by the matcher
and is omitted). -/
structure InvoiceItem where
  itemName : String
  quantity : ℚ
  quantityUom : String
  netWeight : Option ℚ
  lineNo : Option Nat
deriving DecidableEq, Repr

instance : Inhabited InvoiceItem :=
  ⟨{ itemName := "", quantity := 0, quantityUom := "", netWeight := none,
     lineNo := none }⟩

/-- `InvoiceItem.effective_quantity`: the net weight when the invoice's UOM
normalizes to KGM and a net weight is present, otherwise the raw quantity. -/
def InvoiceItem.effectiveQuantity (inv : InvoiceItem) : ℚ :=
  if normalizeUom inv.quantityUom = "KGM" then
    match inv.netWeight with
    | some w => w
    | none => inv.quantity
  else inv.quantity

/-- `MidaItem` (a certificate line item as the matcher sees it). -/
structure MidaItem where
  lineNo : Nat
  itemName : String
  hsCode : String
  approvedQuantity : ℚ
  uom : String
deriving DecidableEq, Repr

instance : Inhabited MidaItem :=
  ⟨{ lineNo := 0, itemName := "", hsCode := "", approvedQuantity := 0, uom := "" }⟩

/-- `MidaItem.remaining_quantity` (source TODO: currently the approved
quantity stands in for the remaining quantity). -/
def MidaItem.remainingQuantity (m : MidaItem) : ℚ :=
  m.approvedQuantity

/-- A `MatchWarning`; the free-text description fields are represented by the
line numbers they embed (nothing verified reads the prose). -/
structure MatchWarningM where
  invoiceLineNo : Option Nat
  midaLineNo : Nat
  reason : String
  severity : Severity
deriving DecidableEq, Repr

/-- `check_quantity_warnings`: a UOM mismatch short-circuits with a warning;
otherwise the effective invoice quantity is compared against the remaining
quantity (none left / exceeds / at least 90 percent used). -/
def checkQuantityWarnings (inv : InvoiceItem) (mida : MidaItem)
    (remainingQty : ℚ) : List MatchWarningM :=
  let invoiceUom := normalizeUom inv.quantityUom
  let midaUom := normalizeUom mida.uom
  if areUomsCompatible invoiceUom midaUom = false then
    [{ invoiceLineNo := inv.lineNo, midaLineNo := mida.lineNo,
       reason := "UOM mismatch", severity := .warning }]
  else
    let invoiceQty := inv.effectiveQuantity
    if remainingQty ≤ 0 then
      [{ invoiceLineNo := inv.lineNo, midaLineNo := mida.lineNo,
         reason := "No remaining quantity", severity := .error }]
    else if remainingQty < invoiceQty then
      [{ invoiceLineNo := inv.lineNo, midaLineNo := mida.lineNo,
         reason := "Exceeds remaining approved quantity", severity := .error }]
    else if 0 < remainingQty then
      if (0.90 : ℚ) ≤ invoiceQty / remainingQty then
        [{ invoiceLineNo := inv.lineNo, midaLineNo := mida.lineNo,
           reason := "Near limit", severity := .info }]
      else []
    else []

/-- The candidate scoring of `find_best_match`: 1.0/exact on normalized
equality, the similarity score (inexact) in fuzzy mode, and skip (`continue`)
in exact mode. -/
def scoreCandidate (normInvoice normMida : String) (mode : MatchMode) :
    Option (ℚ × Bool) :=
  if normInvoice = normMida then some (1, true)
  else if mode = MatchMode.fuzzy then
    some (calculateSimilarity normInvoice normMida, false)
  else none

/-- The deterministic tie-break of `find_best_match`: a higher score wins;
on equal scores exact beats fuzzy; on equal scores and exactness the lower
certificate line number wins. -/
def shouldUpdateBest (midaItems : List MidaItem) (best : Option Nat × ℚ × Bool)
    (score : ℚ) (isExact : Bool) (midaItem : MidaItem) : Bool :=
  if best.2.1 < score then true
  else if score = best.2.1 then
    if isExact = true ∧ best.2.2 = false then true
    else if isExact = best.2.2 then
      match best.1 with
      | some bi => decide (midaItem.lineNo < (midaItems.getD bi default).lineNo)
      | none => false
    else false
  else false

/-- One candidate step of the `find_best_match` loop: skip used indices,
skip empty normalized names, score, apply the fuzzy threshold, and keep the
better of the running best and the candidate under the deterministic
tie-break. -/
def considerCandidate (midaItems : List MidaItem) (normInvoice : String)
    (usedIdx : List Nat) (mode : MatchMode) (threshold : ℚ)
    (best : Option Nat × ℚ × Bool) (c : Nat × MidaItem) : Option Nat × ℚ × Bool :=
  if usedIdx.contains c.1 then best
  else
    let normMida := normalize c.2.itemName
    if normMida = "" then best
    else
      match scoreCandidate normInvoice normMida mode with
      | none => best
      | some (score, isExact) =>
        if isExact = false ∧ score < threshold then best
        else if shouldUpdateBest midaItems best score isExact c.2 then
          (some c.1, score, isExact)
        else best

/-- `find_best_match`: no match for an empty normalized invoice name;
otherwise fold the candidate loop over the MIDA items in order, starting
from (no match, score 0, fuzzy). -/
def findBestMatch (inv : InvoiceItem) (midaItems : List MidaItem)
    (usedIdx : List Nat) (mode : MatchMode) (threshold : ℚ) :
    Option Nat × ℚ × Bool :=
  let normInvoice := normalize inv.itemName
  if normInvoice = "" then (none, 0, false)
  else
    midaItems.enum.foldl
      (considerCandidate midaItems normInvoice usedIdx mode threshold)
      (none, 0, false)

/-- A `MatchResult`; the matched certificate item is identified by its index
into the MIDA item list (`mida_item = mida_items[best_idx]` in source). -/
structure MatchResultM where
  invoiceItem : InvoiceItem
  midaIdx : Option Nat
  matchScore : ℚ
  isExactMatch : Bool
  remainingQty : ℚ
  warnings : List MatchWarningM
deriving DecidableEq, Repr

instance : Inhabited MatchResultM :=
  ⟨{ invoiceItem := default, midaIdx := none, matchScore := 0,
     isExactMatch := false, remainingQty := 0, warnings := [] }⟩

/-- The simulated-remaining update of the `match_items` loop: when the UOMs
are compatible, deduct the effective invoice quantity, floored at zero. -/
def simulatedDeduction (qtys : List ℚ) (idx : Nat) (remainingQty : ℚ)
    (inv : InvoiceItem) (mida : MidaItem) : List ℚ :=
  if areUomsCompatible inv.quantityUom mida.uom then
    qtys.set idx (max 0 (remainingQty - inv.effectiveQuantity))
  else qtys

/-- The per-invoice-item loop of `match_items`, carrying the used-index set
and the simulated remaining quantities. -/
def matchItemsAux (midaItems : List MidaItem) (mode : MatchMode) (threshold : ℚ) :
    List InvoiceItem → List Nat → List ℚ → List MatchResultM
  | [], _, _ => []
  | inv :: rest, usedIdx, qtys =>
    let found := findBestMatch inv midaItems usedIdx mode threshold
    match found.1 with
    | none =>
      { invoiceItem := inv, midaIdx := none, matchScore := 0,
        isExactMatch := false, remainingQty := 0, warnings := [] } ::
        matchItemsAux midaItems mode threshold rest usedIdx qtys
    | some idx =>
      let midaItem := midaItems.getD idx default
      let remainingQty := qtys.getD idx 0
      let warnings := checkQuantityWarnings inv midaItem remainingQty
      let qtys1 := simulatedDeduction qtys idx remainingQty inv midaItem
      { invoiceItem := inv, midaIdx := some idx, matchScore := found.2.1,
        isExactMatch := found.2.2, remainingQty := qtys1.getD idx 0,
        warnings := warnings } ::
        matchItemsAux midaItems mode threshold rest (idx :: usedIdx) qtys1

/-- `MatchingResult`. -/
structure MatchingResultM where
  matchResults : List MatchResultM
  unmatchedInvoiceItems : List InvoiceItem
  warnings : List MatchWarningM
  totalInvoiceItems : Nat
  matchedCount : Nat
  unmatchedCount : Nat
deriving DecidableEq, Repr

/-- `match_items`: seed the simulated remaining quantities from each item's
`remaining_quantity`, run the matching loop with an initially empty used set,
and assemble the summary (an invoice item is unmatched exactly when its
result row carries no MIDA item, and `all_warnings` is the concatenation of
the per-row warnings, both in result order, as in the source loop). -/
def matchItems (invoiceItems : List InvoiceItem) (midaItems : List MidaItem)
    (mode : MatchMode) (threshold : ℚ) : MatchingResultM :=
  let matchResults := matchItemsAux midaItems mode threshold invoiceItems []
    (midaItems.map (fun m => m.remainingQuantity))
  { matchResults := matchResults,
    unmatchedInvoiceItems :=
      (matchResults.filter (fun m => m.midaIdx.isNone)).map (fun m => m.invoiceItem),
    warnings := matchResults.flatMap (fun m => m.warnings),
    totalInvoiceItems := invoiceItems.length,
    matchedCount := (matchResults.filter (fun m => m.midaIdx.isSome)).length,
    unmatchedCount :=
      ((matchResults.filter (fun m => m.midaIdx.isNone)).map (fun m => m.invoiceItem)).length }

/-! ## Concrete fixtures -/

/-- A freshly inserted certificate item whose total approved quantity (100)
differs from the sum of its per-port approved quantities (50 + 30 + 10 = 90);
the insert trigger seeds every remaining column from its approved column, so
`remaining_quantity` starts at 100.  Nothing in the schema or the services
ties `approved_quantity` to the port split, so such rows are reachable. -/
def freshItem : ItemState :=
  initializeRemainingQuantities
    { approvedQuantity := some 100, portKlangQty := some 50, kliaQty := some 30,
      bukitKayuHitamQty := some 10, remainingQuantity := none,
      remainingPortKlang := none, remainingKlia := none,
      remainingBukitKayuHitam := none, warningThreshold := none,
      quantityStatus := .normal }

/-- A one-item committed database holding `freshItem` under id 1. -/
def sampleDb : Db :=
  { items := [(1, freshItem)], records := [], defaultThresholdSetting := none,
    nextCreatedAt := 0 }

/-- A session on `sampleDb` with nothing pending. -/
def sampleSess : Sess :=
  { committed := sampleDb, working := sampleDb }

/-- A Port Klang import of 4 units against item 1 (well within balance). -/
def sampleReqOk : ImportRequest :=
  { certItemId := 1, importDate := 1, quantityImported := 4, port := .portKlang }

/-- A Port Klang import of 200 units against item 1 (far beyond balance). -/
def sampleReqBig : ImportRequest :=
  { certItemId := 1, importDate := 2, quantityImported := 200, port := .portKlang }

/-- A Port Klang record created first but dated later. -/
def sampleRecA : ImportRec :=
  { certItemId := 1, importDate := 5, createdAt := 1, quantityImported := 3,
    port := .portKlang, balanceBefore := 0, balanceAfter := 0 }

/-- A Port Klang record created second but dated earlier (so it replays
first). -/
def sampleRecB : ImportRec :=
  { certItemId := 1, importDate := 3, createdAt := 2, quantityImported := 4,
    port := .portKlang, balanceBefore := 0, balanceAfter := 0 }

/-! ## Theorems -/

/-- Preservation: the balance trigger decrements the affected port remainder
and the aggregate by the same quantity, so aggregate consistency survives a
commit. -/
theorem aggInvariant_trigger (it : ItemState) (p : Port) (qty d : ℚ)
    (h : aggInvariant it) : aggInvariant (updateItemBalanceAfterImport it p qty d) := by
  obtain ⟨a, b, c, h1, h2, h3, h4⟩ := h
  cases p
  · exact ⟨a - qty, b, c, by simp [updateItemBalanceAfterImport, h1],
      by simp [updateItemBalanceAfterImport, h2],
      by simp [updateItemBalanceAfterImport, h3],
      by simp [updateItemBalanceAfterImport, h4]; ring⟩
  · exact ⟨a, b - qty, c, by simp [updateItemBalanceAfterImport, h1],
      by simp [updateItemBalanceAfterImport, h2],
      by simp [updateItemBalanceAfterImport, h3],
      by simp [updateItemBalanceAfterImport, h4]; ring⟩
  · exact ⟨a, b, c - qty, by simp [updateItemBalanceAfterImport, h1],
      by simp [updateItemBalanceAfterImport, h2],
      by simp [updateItemBalanceAfterImport, h3],
      by simp [updateItemBalanceAfterImport, h4]; ring⟩

/-- Establishment: a recomputation always rebuilds the aggregate as the sum
of the three per-port remainders. -/
theorem aggInvariant_recalc (it : ItemState) (records : List ImportRec) (d : ℚ) :
    aggInvariant (recalculateItemRemainingQuantities it records d) :=
  ⟨_, _, _, rfl, rfl, rfl, rfl⟩

/-- Claim C1 (counterexample): starting from a freshly initialized item whose
approved total (100) is not the sum of its port quantities (90), a single
committed import — a sequence of commits and recalculations containing no
recalculation — leaves `remaining_quantity` (95) different from the sum of
the per-port remainders (45 + 30 + 10 = 85). -/
theorem claim1_counterexample :
    ¬ aggInvariant (applyLedgerOps 100 { item := freshItem, records := [] }
      [LedgerOp.commit Port.portKlang 5 1 0]).item := by
  rintro ⟨a, b, c, h1, h2, h3, h4⟩
  have e1 : (applyLedgerOps 100 { item := freshItem, records := [] }
      [LedgerOp.commit Port.portKlang 5 1 0]).item.remainingPortKlang = some 45 := by
    norm_num [applyLedgerOps, applyLedgerOp, updateItemBalanceAfterImport,
      freshItem, initializeRemainingQuantities, orIfNull]
  have e2 : (applyLedgerOps 100 { item := freshItem, records := [] }
      [LedgerOp.commit Port.portKlang 5 1 0]).item.remainingKlia = some 30 := by
    norm_num [applyLedgerOps, applyLedgerOp, updateItemBalanceAfterImport,
      freshItem, initializeRemainingQuantities, orIfNull]
  have e3 : (applyLedgerOps 100 { item := freshItem, records := [] }
      [LedgerOp.commit Port.portKlang 5 1 0]).item.remainingBukitKayuHitam = some 10 := by
    norm_num [applyLedgerOps, applyLedgerOp, updateItemBalanceAfterImport,
      freshItem, initializeRemainingQuantities, orIfNull]
  have e4 : (applyLedgerOps 100 { item := freshItem, records := [] }
      [LedgerOp.commit Port.portKlang 5 1 0]).item.remainingQuantity = some 95 := by
    norm_num [applyLedgerOps, applyLedgerOp, updateItemBalanceAfterImport,
      freshItem, initializeRemainingQuantities, orIfNull]
  rw [h1] at e1
  rw [h2] at e2
  rw [h3] at e3
  rw [h4] at e4
  have ha : a = 45 := Option.some.inj e1
  have hb : b = 30 := Option.some.inj e2
  have hc : c = 10 := Option.some.inj e3
  have ht : a + b + c = 95 := Option.some.inj e4
  rw [ha, hb, hc] at ht
  norm_num at ht

/-- Claim C1 (amended): `remaining_quantity` equals the sum of the three
per-port remainders after every recomputation, and every sequence of commits
and recalculations preserves that equality — so it holds after any sequence
that contains at least one recalculation, or that starts from a state already
satisfying it.  (A freshly initialized item whose `approved_quantity` differs
from the sum of its port quantities violates it until the first
recalculation: `claim1_counterexample`.) -/
theorem claim1_aggregate_invariant (d : ℚ) (s : ItemDb) (ops : List LedgerOp)
    (h : hasRecalc ops = true ∨ aggInvariant s.item) :
    aggInvariant (applyLedgerOps d s ops).item := by
  induction ops generalizing s with
  | nil =>
    cases h with
    | inl h => simp [hasRecalc] at h
    | inr h => exact h
  | cons op rest ih =>
    cases op with
    | recalc =>
      exact ih (s := applyLedgerOp d s .recalc) (Or.inr (aggInvariant_recalc _ _ _))
    | commit p qty dt ct =>
      cases h with
      | inl h =>
        exact ih (s := applyLedgerOp d s (.commit p qty dt ct)) (Or.inl h)
      | inr h =>
        exact ih (s := applyLedgerOp d s (.commit p qty dt ct))
          (Or.inr (aggInvariant_trigger _ _ _ _ h))

/-- Witness for `claim1_aggregate_invariant` at a concrete input: one
recalculation on the fresh item establishes the invariant. -/
theorem claim1_aggregate_invariant_witness :
    aggInvariant (applyLedgerOps 100 { item := freshItem, records := [] }
      [LedgerOp.recalc]).item :=
  claim1_aggregate_invariant 100 { item := freshItem, records := [] }
    [LedgerOp.recalc] (Or.inl rfl)

/-- Claim C2: the status derivation maps a remaining quantity and a threshold
exactly as specified — NULL remaining is normal, negative is overdrawn, zero
is depleted (even when the threshold is zero), positive-but-at-most-threshold
is warning, above-threshold is normal, where the threshold is the item's own
`warning_threshold` when set and otherwise the process-wide default (itself
defaulting to 100) — and this mapping is what the recomputation, the balance
trigger, and the threshold update store. -/
theorem claim2_status_derivation :
    (∀ (wt : Option ℚ) (d : ℚ), calculateQuantityStatus none wt d = .normal) ∧
    (∀ (r : ℚ) (wt : Option ℚ) (d : ℚ), r < 0 →
      calculateQuantityStatus (some r) wt d = .overdrawn) ∧
    (∀ (wt : Option ℚ) (d : ℚ), calculateQuantityStatus (some 0) wt d = .depleted) ∧
    (∀ (r : ℚ) (wt : Option ℚ) (d : ℚ), 0 < r → r ≤ wt.getD d →
      calculateQuantityStatus (some r) wt d = .warning) ∧
    (∀ (r : ℚ) (wt : Option ℚ) (d : ℚ), 0 < r → wt.getD d < r →
      calculateQuantityStatus (some r) wt d = .normal) ∧
    getDefaultWarningThreshold none = 100 ∧
    (∀ (it : ItemState) (records : List ImportRec) (d : ℚ),
      (recalculateItemRemainingQuantities it records d).quantityStatus =
        calculateQuantityStatus
          (recalculateItemRemainingQuantities it records d).remainingQuantity
          it.warningThreshold d) ∧
    (∀ (it : ItemState) (p : Port) (qty d : ℚ),
      (updateItemBalanceAfterImport it p qty d).quantityStatus =
        calculateQuantityStatus
          (updateItemBalanceAfterImport it p qty d).remainingQuantity
          it.warningThreshold d) ∧
    (∀ (it : ItemState) (wt : Option ℚ) (d : ℚ) (r : ℚ),
      it.remainingQuantity = some r →
      (updateItemWarningThreshold it wt d).quantityStatus =
        calculateQuantityStatus (some r) wt d) := by
  refine ⟨fun wt d => rfl, ?_, ?_, ?_, ?_, rfl, ?_, ?_, ?_⟩
  · intro r wt d h
    simp [calculateQuantityStatus, h]
  · intro wt d
    simp [calculateQuantityStatus]
  · intro r wt d h1 h2
    simp only [calculateQuantityStatus]
    rw [if_neg (by linarith), if_neg (by linarith), if_pos h2]
  · intro r wt d h1 h2
    simp only [calculateQuantityStatus]
    rw [if_neg (by linarith), if_neg (by linarith), if_neg (by linarith)]
  · intro it records d
    rfl
  · intro it p qty d
    cases p <;> rfl
  · intro it wt d r h
    simp [updateItemWarningThreshold, h]

/-- Witness for `claim2_status_derivation`: the boundary cases at concrete
inputs (threshold defaulted to 100; depleted wins over warning at
threshold 0; `-1/1000` is overdrawn; remaining equal to the threshold warns;
a sample threshold update applies the mapping). -/
theorem claim2_status_derivation_witness :
    calculateQuantityStatus (some (-1/1000)) none 100 = .overdrawn ∧
    calculateQuantityStatus (some 0) (some 0) 100 = .depleted ∧
    calculateQuantityStatus (some 100) none 100 = .warning ∧
    calculateQuantityStatus (some 101) none 100 = .normal ∧
    (updateItemWarningThreshold freshItem (some 99) 100).quantityStatus =
      calculateQuantityStatus (some 100) (some 99) 100 :=
  ⟨claim2_status_derivation.2.1 (-1/1000) none 100 (by norm_num),
   claim2_status_derivation.2.2.1 (some 0) 100,
   claim2_status_derivation.2.2.2.1 100 none 100 (by norm_num) (by norm_num),
   claim2_status_derivation.2.2.2.2.1 101 none 100 (by norm_num) (by norm_num),
   claim2_status_derivation.2.2.2.2.2.2.2.2 freshItem (some 99) 100 100 rfl⟩

/-- Claim C3: a commit with overdraw disallowed whose resulting balance would
be negative aborts with `InsufficientBalanceError`; the raised error leaves
the session — no record created, remaining quantities and status
untouched. -/
theorem claim3_insufficient_balance_aborts (s : Sess) (req : ImportRequest)
    (item : ItemState) (c : ℚ)
    (hitem : lookupItem s.working.items req.certItemId = some item)
    (hbal : resolveBalance item req.port = Except.ok c)
    (hneg : c - req.quantityImported < 0) :
    recordImport s req false = Except.error ImpError.insufficientBalance ∧
    runRecordImport s req false = (s, none) := by
  have h1 : recordImport s req false = Except.error ImpError.insufficientBalance := by
    simp only [recordImport, hitem, hbal]
    simp [hneg]
  exact ⟨h1, by rw [runRecordImport, h1]⟩

/-- Witness for `claim3_insufficient_balance_aborts`: importing 200 against a
Port Klang balance of 50 with overdraw disallowed. -/
theorem claim3_witness :
    recordImport sampleSess sampleReqBig false =
      Except.error ImpError.insufficientBalance ∧
    runRecordImport sampleSess sampleReqBig false = (sampleSess, none) :=
  claim3_insufficient_balance_aborts sampleSess sampleReqBig freshItem 50
    rfl rfl (by norm_num [sampleReqBig])

/-- Claim C4 (code bug): bulk commit is not all-or-nothing.  `record_import`
commits its own transaction (`db.commit()`), so when the second request of a
bulk pair fails with `InsufficientBalanceError`, the first request's record
is already durably committed and no rollback can remove it — here the bulk
call errors yet the committed record table still holds the first import of
quantity 4. -/
theorem claim4_bulk_commit_not_atomic :
    (recordBulkImports sampleSess [sampleReqOk, sampleReqBig] false false).2 =
      Except.error ImpError.insufficientBalance ∧
    ((recordBulkImports sampleSess [sampleReqOk, sampleReqBig] false
        false).1.committed.records.map (fun r => r.quantityImported)) = [4] ∧
    (recordBulkImports sampleSess [sampleReqOk, sampleReqBig] false
        true).1.committed.records.length = 1 := by
  norm_num [recordBulkImports, recordImport, sampleSess, sampleDb, sampleReqOk,
    sampleReqBig, freshItem, initializeRemainingQuantities, orIfNull, lookupItem,
    setItem, resolveBalance, ItemState.remainingFor, ItemState.portQty,
    updateItemBalanceAfterImport, getDefaultWarningThreshold,
    calculateQuantityStatus, runRecordImport]

/-- Claim C7 (counterexample): after the balance trigger fires on the fresh
item (aggregate 100, port remainders 50/30/10) for a Port Klang import of 5,
the stored aggregate is 95 — the independent decrement — and not the sum of
the three port remainders, 45 + 30 + 10 = 85. -/
theorem claim7_counterexample :
    (updateItemBalanceAfterImport freshItem Port.portKlang 5 100).remainingQuantity ≠
      some ((updateItemBalanceAfterImport freshItem Port.portKlang 5 100).remainingPortKlang.getD 0 +
        (updateItemBalanceAfterImport freshItem Port.portKlang 5 100).remainingKlia.getD 0 +
        (updateItemBalanceAfterImport freshItem Port.portKlang 5 100).remainingBukitKayuHitam.getD 0) := by
  norm_num [updateItemBalanceAfterImport, freshItem, initializeRemainingQuantities,
    orIfNull]

/-- Claim C7 (amended): when an import record is committed the trigger
decrements the record's port remainder by the quantity, leaves the other two
port remainders unchanged, and decrements the aggregate `remaining_quantity`
independently by the same quantity (COALESCEd to 0 when NULL) — it does not
recompute the aggregate as the sum of the three port remainders; that
recomputation happens only in `recalculate_item_remaining_quantities`. -/
theorem claim7_trigger_decrements_aggregate (it : ItemState) (p : Port) (qty d : ℚ) :
    (updateItemBalanceAfterImport it p qty d).remainingFor p =
      (it.remainingFor p).map (fun x => x - qty) ∧
    (∀ p2, p2 ≠ p →
      (updateItemBalanceAfterImport it p qty d).remainingFor p2 = it.remainingFor p2) ∧
    (updateItemBalanceAfterImport it p qty d).remainingQuantity =
      some (it.remainingQuantity.getD 0 - qty) := by
  refine ⟨?_, ?_, ?_⟩
  · cases p <;> rfl
  · intro p2 hne
    cases p <;> cases p2 <;> first | rfl | exact absurd rfl hne
  · cases p <;> rfl

/-- Witness for `claim7_trigger_decrements_aggregate` on the fresh item. -/
theorem claim7_witness :
    (updateItemBalanceAfterImport freshItem Port.portKlang 5 100).remainingFor
      Port.klia = freshItem.remainingFor Port.klia ∧
    (updateItemBalanceAfterImport freshItem Port.portKlang 5 100).remainingQuantity =
      some (freshItem.remainingQuantity.getD 0 - 5) :=
  ⟨(claim7_trigger_decrements_aggregate freshItem Port.portKlang 5 100).2.1
      Port.klia (by simp),
   (claim7_trigger_decrements_aggregate freshItem Port.portKlang 5 100).2.2⟩

/-- The replay rewrites every record and keeps the list length. -/
theorem replayBalances_length (bal : ℚ) (rs : List ImportRec) :
    (replayBalances bal rs).length = rs.length := by
  induction rs generalizing bal with
  | nil => rfl
  | cons r rest ih => simp [replayBalances, ih]

/-- Each replayed record satisfies `balance_after = balance_before -
quantity_imported` and keeps its quantity. -/
theorem replayBalances_step (bal : ℚ) (rs : List ImportRec) (d : ImportRec) :
    ∀ i, i < rs.length →
      ((replayBalances bal rs).getD i d).balanceAfter =
        ((replayBalances bal rs).getD i d).balanceBefore -
          ((replayBalances bal rs).getD i d).quantityImported ∧
      ((replayBalances bal rs).getD i d).quantityImported =
        (rs.getD i d).quantityImported := by
  induction rs generalizing bal with
  | nil => intro i h; simp at h
  | cons r rest ih =>
    intro i h
    cases i with
    | zero => simp [replayBalances]
    | succ n =>
      have := ih (bal - r.quantityImported) n (by simpa using h)
      simpa [replayBalances] using this

/-- The first replayed record's `balance_before` is the starting balance. -/
theorem replayBalances_head (bal : ℚ) (rs : List ImportRec) (d : ImportRec)
    (h : 0 < rs.length) : ((replayBalances bal rs).getD 0 d).balanceBefore = bal := by
  cases rs with
  | nil => simp at h
  | cons r rest => simp [replayBalances]

/-- Each replayed record's `balance_before` is its predecessor's
`balance_after`: the running balance is carried forward. -/
theorem replayBalances_chain (bal : ℚ) (rs : List ImportRec) (d : ImportRec) :
    ∀ i, i + 1 < rs.length →
      ((replayBalances bal rs).getD (i + 1) d).balanceBefore =
        ((replayBalances bal rs).getD i d).balanceAfter := by
  induction rs generalizing bal with
  | nil => intro i h; simp at h
  | cons r rest ih =>
    intro i h
    cases i with
    | zero =>
      have hlen : 0 < rest.length := by simpa using h
      have hh := replayBalances_head (bal - r.quantityImported) rest d hlen
      simp [replayBalances] at hh ⊢
      exact hh
    | succ n =>
      have := ih (bal - r.quantityImported) n (by simpa using h)
      simpa [replayBalances] using this

/-- Claim C5: `recalculate_item_port_balances` replays exactly the item/port
history — the processed list is an (import-date, creation-time)-sorted
permutation of the port's records — starting the running balance at the
port's approved quantity: the first record's `balance_before` is the approved
quantity, every record's `balance_after` is its `balance_before` minus its
quantity, quantities are untouched, and every later record's `balance_before`
is the previous record's `balance_after`. -/
theorem claim5_port_replay (it : ItemState) (records : List ImportRec) (p : Port)
    (a : ℚ) (happ : it.portQty p = some a) (d : ImportRec) :
    (recalculateItemPortBalances it records p).length =
      (sortRecords (records.filter (fun r => r.port == p))).length ∧
    (sortRecords (records.filter (fun r => r.port == p))).Perm
      (records.filter (fun r => r.port == p)) ∧
    (sortRecords (records.filter (fun r => r.port == p))).Sorted recLe ∧
    (0 < (recalculateItemPortBalances it records p).length →
      ((recalculateItemPortBalances it records p).getD 0 d).balanceBefore = a) ∧
    (∀ i, i < (recalculateItemPortBalances it records p).length →
      ((recalculateItemPortBalances it records p).getD i d).balanceAfter =
        ((recalculateItemPortBalances it records p).getD i d).balanceBefore -
          ((recalculateItemPortBalances it records p).getD i d).quantityImported ∧
      ((recalculateItemPortBalances it records p).getD i d).quantityImported =
        ((sortRecords (records.filter (fun r => r.port == p))).getD i
          d).quantityImported) ∧
    (∀ i, i + 1 < (recalculateItemPortBalances it records p).length →
      ((recalculateItemPortBalances it records p).getD (i + 1) d).balanceBefore =
        ((recalculateItemPortBalances it records p).getD i d).balanceAfter) := by
  have hstart : (it.portQty p).getD 0 = a := by rw [happ]; rfl
  unfold recalculateItemPortBalances
  rw [hstart]
  refine ⟨replayBalances_length _ _, List.perm_insertionSort recLe _,
    List.sorted_insertionSort recLe _, ?_, ?_, ?_⟩
  · intro h
    exact replayBalances_head a _ d (by rwa [replayBalances_length] at h)
  · intro i h
    exact replayBalances_step a _ d i (by rwa [replayBalances_length] at h)
  · intro i h
    exact replayBalances_chain a _ d i (by rwa [replayBalances_length] at h)

/-- Witness for `claim5_port_replay`: two Port Klang records arriving out of
date order against an approved quantity of 50. -/
theorem claim5_witness :
    (recalculateItemPortBalances freshItem [sampleRecA, sampleRecB] Port.portKlang).length =
      (sortRecords ([sampleRecA, sampleRecB].filter
        (fun r => r.port == Port.portKlang))).length ∧
    (sortRecords ([sampleRecA, sampleRecB].filter
        (fun r => r.port == Port.portKlang))).Perm
      ([sampleRecA, sampleRecB].filter (fun r => r.port == Port.portKlang)) ∧
    (sortRecords ([sampleRecA, sampleRecB].filter
        (fun r => r.port == Port.portKlang))).Sorted recLe ∧
    (0 < (recalculateItemPortBalances freshItem [sampleRecA, sampleRecB]
        Port.portKlang).length →
      ((recalculateItemPortBalances freshItem [sampleRecA, sampleRecB]
        Port.portKlang).getD 0 sampleRecA).balanceBefore = 50) ∧
    (∀ i, i < (recalculateItemPortBalances freshItem [sampleRecA, sampleRecB]
        Port.portKlang).length →
      ((recalculateItemPortBalances freshItem [sampleRecA, sampleRecB]
        Port.portKlang).getD i sampleRecA).balanceAfter =
        ((recalculateItemPortBalances freshItem [sampleRecA, sampleRecB]
          Port.portKlang).getD i sampleRecA).balanceBefore -
          ((recalculateItemPortBalances freshItem [sampleRecA, sampleRecB]
            Port.portKlang).getD i sampleRecA).quantityImported ∧
      ((recalculateItemPortBalances freshItem [sampleRecA, sampleRecB]
        Port.portKlang).getD i sampleRecA).quantityImported =
        ((sortRecords ([sampleRecA, sampleRecB].filter
          (fun r => r.port == Port.portKlang))).getD i sampleRecA).quantityImported) ∧
    (∀ i, i + 1 < (recalculateItemPortBalances freshItem [sampleRecA, sampleRecB]
        Port.portKlang).length →
      ((recalculateItemPortBalances freshItem [sampleRecA, sampleRecB]
        Port.portKlang).getD (i + 1) sampleRecA).balanceBefore =
        ((recalculateItemPortBalances freshItem [sampleRecA, sampleRecB]
          Port.portKlang).getD i sampleRecA).balanceAfter) :=
  claim5_port_replay freshItem [sampleRecA, sampleRecB] Port.portKlang 50 rfl
    sampleRecA

/-- The loop's final running balance is the start minus the sum of the
quantities. -/
theorem replayFinalBalance_eq (bal : ℚ) (rs : List ImportRec) :
    replayFinalBalance bal rs =
      bal - (rs.map (fun r => r.quantityImported)).sum := by
  induction rs generalizing bal with
  | nil => simp [replayFinalBalance]
  | cons r rest ih =>
    simp only [replayFinalBalance, List.foldl_cons, List.map_cons, List.sum_cons] at ih ⊢
    rw [ih]
    ring

/-- Sorting the history does not change the total quantity imported. -/
theorem sortRecords_sum (l : List ImportRec) :
    ((sortRecords l).map (fun r => r.quantityImported)).sum =
      (l.map (fun r => r.quantityImported)).sum :=
  List.Perm.sum_eq ((List.perm_insertionSort recLe l).map (fun r => r.quantityImported))

/-- Claim C6: replaying the full ordered history of a port from its approved
quantity ends at exactly the value the sum-based recomputation stores in the
port's remaining column — the cached per-port remainder is derivable from the
ledger, with no drift between the two recomputations. -/
theorem claim6_replay_matches_recalc (it : ItemState) (records : List ImportRec)
    (p : Port) (d : ℚ) :
    some (replayFinalBalance ((it.portQty p).getD 0)
        (sortRecords (records.filter (fun r => r.port == p)))) =
      (recalculateItemRemainingQuantities it records d).remainingFor p := by
  rw [replayFinalBalance_eq, sortRecords_sum]
  cases p <;>
    simp [recalculateItemRemainingQuantities, ItemState.remainingFor,
      ItemState.portQty, importedAtPort]

/-- A common run is no longer than the first list. -/
theorem runLen_le_left (a : List Char) : ∀ b, runLen a b ≤ a.length := by
  induction a with
  | nil => intro b; cases b <;> simp [runLen]
  | cons x xs ih =>
    intro b
    cases b with
    | nil => simp [runLen]
    | cons y ys =>
      simp only [runLen, List.length_cons]
      split
      · have := ih ys; omega
      · omega

/-- A common run is no longer than the second list. -/
theorem runLen_le_right (a : List Char) : ∀ b, runLen a b ≤ b.length := by
  induction a with
  | nil => intro b; cases b <;> simp [runLen]
  | cons x xs ih =>
    intro b
    cases b with
    | nil => simp [runLen]
    | cons y ys =>
      simp only [runLen, List.length_cons]
      split
      · have := ih ys; omega
      · omega

/-- The best-block fold returns its seed or one of the candidates. -/
theorem foldl_best_choice (l : List (Nat × Nat × Nat)) :
    ∀ init : Nat × Nat × Nat,
      l.foldl (fun best c => if best.2.2 < c.2.2 then c else best) init = init ∨
        l.foldl (fun best c => if best.2.2 < c.2.2 then c else best) init ∈ l := by
  induction l with
  | nil => intro init; left; rfl
  | cons c t ih =>
    intro init
    rw [List.foldl_cons]
    rcases ih (if init.2.2 < c.2.2 then c else init) with h | h
    · rw [h]
      split
      · right; exact List.mem_cons_self ..
      · left; rfl
    · right; exact List.mem_cons_of_mem _ h

/-- The selected block lies inside both lists. -/
theorem longestMatch_bounds (a b : List Char) :
    (longestMatch a b).1 + (longestMatch a b).2.2 ≤ a.length ∧
      (longestMatch a b).2.1 + (longestMatch a b).2.2 ≤ b.length := by
  unfold longestMatch
  rcases foldl_best_choice _ (0, 0, 0) with h | h
  · rw [h]; simp
  · obtain ⟨i, hi, hmem⟩ := List.mem_flatMap.mp h
    obtain ⟨j, hj, heq⟩ := List.mem_map.mp hmem
    rw [← heq]
    have hi2 : i < a.length := List.mem_range.mp hi
    have hj2 : j < b.length := List.mem_range.mp hj
    have h1 : runLen (a.drop i) (b.drop j) ≤ a.length - i := by
      have := runLen_le_left (a.drop i) (b.drop j)
      simpa using this
    have h2 : runLen (a.drop i) (b.drop j) ≤ b.length - j := by
      have := runLen_le_right (a.drop i) (b.drop j)
      simpa using this
    constructor <;> simp <;> omega

/-- The matched-character total never exceeds either length (any fuel). -/
theorem matchingSizeFuel_le (fuel : Nat) :
    ∀ a b : List Char, matchingSizeFuel fuel a b ≤ a.length ∧
      matchingSizeFuel fuel a b ≤ b.length := by
  induction fuel with
  | zero => intro a b; simp [matchingSizeFuel]
  | succ f ih =>
    intro a b
    by_cases hk : (longestMatch a b).2.2 = 0
    · simp [matchingSizeFuel, hk]
    · have hb := longestMatch_bounds a b
      have h1 := ih (a.take (longestMatch a b).1) (b.take (longestMatch a b).2.1)
      have h2 := ih (a.drop ((longestMatch a b).1 + (longestMatch a b).2.2))
        (b.drop ((longestMatch a b).2.1 + (longestMatch a b).2.2))
      simp only [matchingSizeFuel, if_neg hk]
      simp only [List.length_take, List.length_drop] at h1 h2
      omega

/-- The matched-character total never exceeds either length. -/
theorem matchingSize_le (a b : List Char) :
    matchingSize a b ≤ a.length ∧ matchingSize a b ≤ b.length :=
  matchingSizeFuel_le (a.length + 1) a b

/-- The sequence ratio is nonnegative. -/
theorem sequenceRatio_nonneg (a b : List Char) : 0 ≤ sequenceRatio a b := by
  unfold sequenceRatio
  split
  · norm_num
  · positivity

/-- The sequence ratio is at most one. -/
theorem sequenceRatio_le_one (a b : List Char) : sequenceRatio a b ≤ 1 := by
  unfold sequenceRatio
  split
  · norm_num
  · rename_i h
    have hpos : (0 : ℚ) < (a.length : ℚ) + (b.length : ℚ) := by
      have : 0 < a.length + b.length := Nat.pos_of_ne_zero h
      exact_mod_cast this
    rw [div_le_one hpos]
    have h1 := (matchingSize_le a b).1
    have h2 := (matchingSize_le a b).2
    have : 2 * matchingSize a b ≤ a.length + b.length := by omega
    exact_mod_cast this

/-- Claim C8 (counterexample): the claim's two first cases overlap at a pair
of empty strings — they are equal, yet the score is 0, not 1: the source
checks emptiness before equality. -/
theorem claim8_counterexample :
    ("" : String) = ("" : String) ∧ calculateSimilarity "" "" = 0 ∧
      calculateSimilarity "" "" ≠ 1 := by
  refine ⟨rfl, ?_, ?_⟩ <;> norm_num [calculateSimilarity]

/-- Claim C8 (amended): the similarity score is 0 when either string is
empty (this case wins at a pair of empty strings), 1 when the strings are
equal and nonempty, and otherwise — for normalized inputs, whose token sets
are nonempty exactly when they are — `0.4 * jaccard + 0.6 * sequenceRatio`;
it always lies in `[0, 1]`. -/
theorem claim8_similarity (a b : String) :
    (a = "" ∨ b = "" → calculateSimilarity a b = 0) ∧
    (a ≠ "" → a = b → calculateSimilarity a b = 1) ∧
    (a ≠ b → tokenFinset a ≠ ∅ → tokenFinset b ≠ ∅ → a ≠ "" → b ≠ "" →
      calculateSimilarity a b =
        (0.4 : ℚ) * (((tokenFinset a ∩ tokenFinset b).card : ℚ) /
          ((tokenFinset a ∪ tokenFinset b).card : ℚ)) +
        (0.6 : ℚ) * sequenceRatio a.toList b.toList) ∧
    (0 ≤ calculateSimilarity a b ∧ calculateSimilarity a b ≤ 1) := by
  refine ⟨?_, ?_, ?_, ?_⟩
  · intro h
    simp only [calculateSimilarity, if_pos h]
  · intro ha hab
    have hb : b ≠ "" := fun h => ha (hab.trans h)
    simp only [calculateSimilarity]
    rw [if_neg (by simp [ha, hb]), if_pos hab]
  · intro hab ht1 ht2 ha hb
    simp only [calculateSimilarity]
    rw [if_neg (by simp [ha, hb]), if_neg hab, if_neg (by simp [ht1, ht2])]
    have hpos : 0 < (tokenFinset a ∪ tokenFinset b).card :=
      Finset.card_pos.mpr
        ((Finset.nonempty_iff_ne_empty.mpr ht1).mono Finset.subset_union_left)
    rw [if_pos hpos]
    ring
  · have hs0 := sequenceRatio_nonneg a.toList b.toList
    have hs1 := sequenceRatio_le_one a.toList b.toList
    simp only [calculateSimilarity]
    split_ifs with h1 h2 h3 h4
    · norm_num
    · norm_num
    · norm_num
    · have hj0 : (0 : ℚ) ≤ ((tokenFinset a ∩ tokenFinset b).card : ℚ) /
          ((tokenFinset a ∪ tokenFinset b).card : ℚ) := by positivity
      have hj1 : ((tokenFinset a ∩ tokenFinset b).card : ℚ) /
          ((tokenFinset a ∪ tokenFinset b).card : ℚ) ≤ 1 := by
        rw [div_le_one (by exact_mod_cast h4)]
        exact_mod_cast Finset.card_le_card Finset.inter_subset_union
      constructor <;> nlinarith
    · constructor <;> nlinarith

/-- Witness for `claim8_similarity` at concrete strings: an empty side, an
equal pair, and the blend on the transposition pair ab / ba. -/
theorem claim8_witness :
    calculateSimilarity "" "x" = 0 ∧
    calculateSimilarity "ab" "ab" = 1 ∧
    calculateSimilarity "ab" "ba" =
      (0.4 : ℚ) * (((tokenFinset "ab" ∩ tokenFinset "ba").card : ℚ) /
        ((tokenFinset "ab" ∪ tokenFinset "ba").card : ℚ)) +
      (0.6 : ℚ) * sequenceRatio "ab".toList "ba".toList :=
  ⟨(claim8_similarity "" "x").1 (Or.inl rfl),
   (claim8_similarity "ab" "ab").2.1 (by decide) rfl,
   (claim8_similarity "ab" "ba").2.2.1 (by decide) (by decide) (by decide)
     (by decide) (by decide)⟩

/-- A fold preserves any property its step preserves. -/
theorem foldl_preserve {α β : Type} (P : β → Prop) (f : β → α → β) :
    ∀ (l : List α) (init : β), P init →
      (∀ b a, a ∈ l → P b → P (f b a)) → P (l.foldl f init) := by
  intro l
  induction l with
  | nil => intro init h _; exact h
  | cons x t ih =>
    intro init h hstep
    exact ih (f init x) (hstep init x (List.mem_cons_self ..) h)
      (fun b a ha hb => hstep b a (List.mem_cons_of_mem _ ha) hb)

/-- Indices produced by `enumFrom` stay within range. -/
theorem enumFrom_fst_lt {α : Type} : ∀ (n : Nat) (l : List α) (p : Nat × α),
    p ∈ List.enumFrom n l → p.1 < n + l.length := by
  intro n l
  induction l generalizing n with
  | nil => intro p h; simp [List.enumFrom] at h
  | cons x t ih =>
    intro p h
    rcases List.mem_cons.mp h with h | h
    · subst h; simp
    · have := ih (n + 1) p h
      simp only [List.length_cons]
      omega

/-- One candidate step either keeps the running best or selects the
candidate's own (unused) index. -/
theorem considerCandidate_cases (midaItems : List MidaItem) (normInvoice : String)
    (usedIdx : List Nat) (mode : MatchMode) (threshold : ℚ)
    (best : Option Nat × ℚ × Bool) (c : Nat × MidaItem) :
    considerCandidate midaItems normInvoice usedIdx mode threshold best c = best ∨
    ((considerCandidate midaItems normInvoice usedIdx mode threshold best c).1 =
        some c.1 ∧ usedIdx.contains c.1 = false) := by
  simp only [considerCandidate]
  split
  · left; rfl
  next hused =>
    split
    · left; rfl
    · split
      · left; rfl
      · split
        · left; rfl
        · split
          · right
            exact ⟨rfl, by simpa using hused⟩
          · left; rfl

/-- A selected best-match index is not in the used set and is in range. -/
theorem findBestMatch_some (inv : InvoiceItem) (midaItems : List MidaItem)
    (usedIdx : List Nat) (mode : MatchMode) (threshold : ℚ) (idx : Nat)
    (h : (findBestMatch inv midaItems usedIdx mode threshold).1 = some idx) :
    usedIdx.contains idx = false ∧ idx < midaItems.length := by
  unfold findBestMatch at h
  by_cases hn : normalize inv.itemName = ""
  · rw [if_pos hn] at h
    simp at h
  · rw [if_neg hn] at h
    have hinv := foldl_preserve
      (fun best : Option Nat × ℚ × Bool => ∀ k, best.1 = some k →
        usedIdx.contains k = false ∧ k < midaItems.length)
      (considerCandidate midaItems (normalize inv.itemName) usedIdx mode threshold)
      midaItems.enum (none, 0, false) (by intro k hk; simp at hk) ?_
    · exact hinv idx h
    · intro best c hc hbest k hk
      rcases considerCandidate_cases midaItems (normalize inv.itemName) usedIdx mode
          threshold best c with hcase | ⟨hsel, hun⟩
      · rw [hcase] at hk
        exact hbest k hk
      · rw [hsel] at hk
        cases hk
        refine ⟨hun, ?_⟩
        have := enumFrom_fst_lt 0 midaItems c hc
        simpa using this

/-- Every match the loop emits uses an index outside the used set it was
started with. -/
theorem matchItemsAux_used (midaItems : List MidaItem) (mode : MatchMode)
    (threshold : ℚ) :
    ∀ (invs : List InvoiceItem) (usedIdx : List Nat) (qtys : List ℚ)
      (m : MatchResultM) (k : Nat),
      m ∈ matchItemsAux midaItems mode threshold invs usedIdx qtys →
      m.midaIdx = some k → usedIdx.contains k = false := by
  intro invs
  induction invs with
  | nil =>
    intro u q m k hm
    simp [matchItemsAux] at hm
  | cons inv rest ih =>
    intro u q m k hm hk
    simp only [matchItemsAux] at hm
    rcases hfb : (findBestMatch inv midaItems u mode threshold).1 with _ | idx
    · rw [hfb] at hm
      simp only at hm
      rcases List.mem_cons.mp hm with hm | hm
      · subst hm; simp at hk
      · exact ih u q m k hm hk
    · rw [hfb] at hm
      simp only at hm
      rcases List.mem_cons.mp hm with hm | hm
      · subst hm
        simp only at hk
        cases hk
        exact (findBestMatch_some inv midaItems u mode threshold k hfb).1
      · have := ih (idx :: u) _ m k hm hk
        simp only [List.contains_cons, Bool.or_eq_false_iff] at this
        exact this.2

/-- The loop's output never assigns the same MIDA index twice. -/
theorem matchItemsAux_pairwise (midaItems : List MidaItem) (mode : MatchMode)
    (threshold : ℚ) :
    ∀ (invs : List InvoiceItem) (usedIdx : List Nat) (qtys : List ℚ),
      (matchItemsAux midaItems mode threshold invs usedIdx qtys).Pairwise
        (fun m1 m2 => ∀ k, m1.midaIdx = some k → m2.midaIdx ≠ some k) := by
  intro invs
  induction invs with
  | nil =>
    intro u q
    simp [matchItemsAux]
  | cons inv rest ih =>
    intro u q
    simp only [matchItemsAux]
    rcases hfb : (findBestMatch inv midaItems u mode threshold).1 with _ | idx
    · dsimp only
      refine List.Pairwise.cons ?_ (ih u q)
      intro m hm k hk
      simp at hk
    · dsimp only
      refine List.Pairwise.cons ?_ (ih (idx :: u) _)
      intro m hm k hk hmk
      simp only at hk
      cases hk
      have := matchItemsAux_used midaItems mode threshold rest (idx :: u) _ m idx
        hm hmk
      simp [List.contains_cons] at this

/-- Claim C9: the matcher's output is a 1-to-1 assignment — in any mode, at
any threshold, two distinct result rows never reference the same certificate
item. -/
theorem claim9_one_to_one (invoiceItems : List InvoiceItem)
    (midaItems : List MidaItem) (mode : MatchMode) (threshold : ℚ)
    (i j k1 k2 : Nat)
    (hi : i < (matchItems invoiceItems midaItems mode threshold).matchResults.length)
    (hj : j < (matchItems invoiceItems midaItems mode threshold).matchResults.length)
    (hij : i ≠ j)
    (h1 : ((matchItems invoiceItems midaItems mode threshold).matchResults.getD i
      default).midaIdx = some k1)
    (h2 : ((matchItems invoiceItems midaItems mode threshold).matchResults.getD j
      default).midaIdx = some k2) : k1 ≠ k2 := by
  intro heq
  subst heq
  have hp := matchItemsAux_pairwise midaItems mode threshold invoiceItems []
    (midaItems.map (fun m => m.remainingQuantity))
  have hres : (matchItems invoiceItems midaItems mode threshold).matchResults =
      matchItemsAux midaItems mode threshold invoiceItems []
        (midaItems.map (fun m => m.remainingQuantity)) := rfl
  rw [hres] at hi hj h1 h2
  rw [List.getD_eq_getElem _ _ hi] at h1
  rw [List.getD_eq_getElem _ _ hj] at h2
  rw [List.pairwise_iff_get] at hp
  rcases Nat.lt_or_ge i j with hlt | hge
  · exact hp ⟨i, hi⟩ ⟨j, hj⟩ hlt k1 (by simpa using h1) (by simpa using h2)
  · have hlt : j < i := Nat.lt_of_le_of_ne hge (fun hh => hij hh.symm)
    exact hp ⟨j, hj⟩ ⟨i, hi⟩ hlt k1 (by simpa using h2) (by simpa using h1)

/-- Two invoice lines for the 1-to-1 witness. -/
def wInvA : InvoiceItem :=
  { itemName := "alpha", quantity := 1, quantityUom := "UNT", netWeight := none,
    lineNo := some 1 }

/-- Second invoice line for the 1-to-1 witness. -/
def wInvB : InvoiceItem :=
  { itemName := "beta", quantity := 2, quantityUom := "UNT", netWeight := none,
    lineNo := some 2 }

/-- Two certificate lines for the 1-to-1 witness. -/
def wMidaA : MidaItem :=
  { lineNo := 1, itemName := "alpha", hsCode := "8471", approvedQuantity := 10,
    uom := "UNIT" }

/-- Second certificate line for the 1-to-1 witness. -/
def wMidaB : MidaItem :=
  { lineNo := 2, itemName := "beta", hsCode := "8473", approvedQuantity := 10,
    uom := "UNIT" }

/-- Witness for `claim9_one_to_one`: a concrete exact-mode run assigning rows
0 and 1 to distinct certificate items. -/
theorem claim9_witness : (0 : Nat) ≠ 1 :=
  claim9_one_to_one [wInvA, wInvB] [wMidaA, wMidaB] MatchMode.exact (3 / 4)
    0 1 0 1 (by decide) (by decide) (by decide) (by decide) (by decide)

/-- Every compatibility group in the source table is the singleton of its
key, so compatibility collapses to equality of normalized forms. -/
theorem compatGroup_eq (s : String) : compatGroup s = [s] := by
  unfold compatGroup
  rcases hf : uomCompatibility.find? (fun p => p.1 == s) with _ | p
  · rw [hf]
  · have hps : p.1 = s := by simpa using List.find?_some hf
    have hmem := List.mem_of_find?_eq_some hf
    have h2 : p.2 = [p.1] := by
      fin_cases hmem <;> rfl
    rw [hf]
    show p.2 = [s]
    rw [h2, hps]

/-- Two UOMs are compatible exactly when their normalized forms are equal
(the compatibility groups are all singletons). -/
theorem areUomsCompatible_iff (u1 u2 : String) :
    areUomsCompatible u1 u2 = true ↔ normalizeUom u1 = normalizeUom u2 := by
  simp only [areUomsCompatible]
  split
  · next h => simp [h]
  · next h =>
    rw [compatGroup_eq, compatGroup_eq]
    simp only [List.any_cons, List.any_nil, List.contains_cons, List.contains_nil,
      Bool.or_false]
    constructor
    · intro hb
      exact absurd (by simpa using hb) h
    · intro hb
      exact absurd hb h

/-- Claim C10: for a matched pair with compatible UOMs, the effective invoice
quantity is the net weight exactly when the matched item's UOM normalizes to
KGM and a net weight is present (the raw quantity otherwise); the simulated
remaining quantity is reduced by that effective quantity (floored at zero);
and the quantity warnings are those computed from that effective quantity —
replacing the invoice line by one whose raw quantity is the effective
quantity changes nothing. -/
theorem claim10_effective_quantity (inv : InvoiceItem) (mida : MidaItem)
    (qtys : List ℚ) (idx : Nat) (r : ℚ)
    (hc : areUomsCompatible inv.quantityUom mida.uom = true) :
    inv.effectiveQuantity =
      (match inv.netWeight with
       | some w => if normalizeUom mida.uom = "KGM" then w else inv.quantity
       | none => inv.quantity) ∧
    simulatedDeduction qtys idx r inv mida =
      qtys.set idx (max 0 (r - inv.effectiveQuantity)) ∧
    checkQuantityWarnings inv mida r =
      checkQuantityWarnings
        { inv with quantity := inv.effectiveQuantity, netWeight := none } mida r := by
  have hnorm : normalizeUom inv.quantityUom = normalizeUom mida.uom :=
    (areUomsCompatible_iff _ _).mp hc
  have heff : ({ inv with quantity := inv.effectiveQuantity, netWeight := none } :
      InvoiceItem).effectiveQuantity = inv.effectiveQuantity := by
    simp [InvoiceItem.effectiveQuantity]
  refine ⟨?_, ?_, ?_⟩
  · unfold InvoiceItem.effectiveQuantity
    rw [hnorm]
    cases inv.netWeight with
    | none => simp
    | some w => simp
  · simp [simulatedDeduction, hc]
  · unfold checkQuantityWarnings
    rw [heff]

/-- A KGM-denominated invoice line (net weight 5 kg, raw quantity 10) for the
effective-quantity witness. -/
def wInvKg : InvoiceItem :=
  { itemName := "copper wire", quantity := 10, quantityUom := "kgs",
    netWeight := some 5, lineNo := some 3 }

/-- The matched KGM certificate line for the effective-quantity witness. -/
def wMidaKg : MidaItem :=
  { lineNo := 4, itemName := "copper wire", hsCode := "7408",
    approvedQuantity := 100, uom := "KGM" }

/-- Witness for `claim10_effective_quantity`: kgs/KGM are compatible, so the
net weight is used. -/
theorem claim10_witness :
    wInvKg.effectiveQuantity =
      (match wInvKg.netWeight with
       | some w => if normalizeUom wMidaKg.uom = "KGM" then w else wInvKg.quantity
       | none => wInvKg.quantity) ∧
    simulatedDeduction [(8 : ℚ)] 0 8 wInvKg wMidaKg =
      [(8 : ℚ)].set 0 (max 0 (8 - wInvKg.effectiveQuantity)) ∧
    checkQuantityWarnings wInvKg wMidaKg 8 =
      checkQuantityWarnings
        { wInvKg with quantity := wInvKg.effectiveQuantity, netWeight := none }
        wMidaKg 8 :=
  claim10_effective_quantity wInvKg wMidaKg [(8 : ℚ)] 0 8 (by decide)

end Mida
